import Mathlib

/-!
Shallow embedding of the CSD GDB pretty-printer module
(src/utils/gdb-printers/csd.py) and verification of its specification.

Python strings are modelled as Lean `String`; Python string methods used by
the source (slicing, startswith, endswith) are modelled below on the
character list of the string.  GDB values and types are external inputs of
the program (spec section 6); their introspected content (type names,
template arguments, field values, addresses) is modelled by explicit record
fields, and a Python exception escaping a function is modelled by an
`Option`/`Except` failure result.
-/

/-- Python slicing s[n:], as used for typename[5:] in the source. -/
def pyDrop (s : String) (n : Nat) : String :=
  String.mk (s.toList.drop n)

/-- Python str.startswith. -/
def pyStartswith (s pre : String) : Bool :=
  pre.toList.isPrefixOf s.toList

/-- Python str.endswith. -/
def pyEndswith (s suf : String) : Bool :=
  suf.toList.isSuffixOf s.toList

/-- Embedding of _remove_generics: re.match of one-or-more characters other
than the open angle bracket, anchored at the start.  When the regex does not
match (empty input or input beginning with the open angle bracket) the Python
code calls .group on None and raises AttributeError, modelled by `none`. -/
def removeGenerics (typename : String) : Option String :=
  match typename.toList.takeWhile (fun c => c ≠ '<') with
  | [] => none
  | cs => some (String.mk cs)

/-- Embedding of the _nttpIntegralSuffix dictionary. -/
def nttpIntegralSuffix (k : String) : Option String :=
  if k = "long" then some "l"
  else if k = "long long" then some "ll"
  else if k = "unsigned int" then some "u"
  else if k = "unsigned long" then some "ul"
  else if k = "unsigned long long" then some "ull"
  else none

/-- Embedding of the offset encoding in _get_entry_extractor_typename:
the dictionary get followed by the conditional f-string.  The Python
conditional tests truthiness of the suffix, so an empty suffix string would
also select the unsuffixed branch; the dictionary never holds one. -/
def encodeNttp (v : Int) (tyName : String) : String :=
  match nttpIntegralSuffix tyName with
  | some suffix => if suffix.isEmpty then toString v else toString v ++ suffix
  | none => toString v

/-- Introspected content of an entry-extractor gdb.Type, already stripped of
typedefs (the source strips typedefs before every use).  The three template
arguments are modelled by their printed text for indices 0 and 1 and, for the
non-type index 2, by its integer value together with the name of its
underlying integer type. -/
structure ExtractorTy where
  strippedName : String
  arg0 : String
  arg1 : String
  arg2Val : Int
  arg2TypeName : String
deriving DecidableEq, Repr

/-- Embedding of _get_entry_extractor_typename.  `none` models the
AttributeError escaping from _remove_generics. -/
def getEntryExtractorTypename (ty : ExtractorTy) : Option String :=
  match removeGenerics ty.strippedName with
  | none => none
  | some templateName =>
    if templateName ≠ "csg::offset_extractor" then
      some ty.strippedName
    else
      some ("csg::offset_extractor<" ++ ty.arg0 ++ ", " ++ ty.arg1 ++ ", "
            ++ encodeNttp ty.arg2Val ty.arg2TypeName ++ ">")

/-- A symbol returned by gdb.lookup_symbol. -/
structure GdbSym where
  is_function : Bool
deriving DecidableEq, Repr

/-- The target symbol table: zero-or-one symbol per fully qualified name. -/
def GdbSymTab : Type := String → Option GdbSym

/-- Embedding of the entryRefCodecClassName f-string. -/
def codecClassName (elementTy entryTy exName : String) : String :=
  "csg::detail::entry_ref_codec<" ++ entryTy ++ ", " ++ elementTy ++ ", "
    ++ exName ++ ">"

/-- Embedding of the getEntryFnName f-string. -/
def entryFnName (exName refTy : String) : String :=
  "get_entry(" ++ exName ++ " &, " ++ refTy ++ ")"

/-- Embedding of the getValueFnName f-string. -/
def valueFnName (refTy : String) : String :=
  "get_value(" ++ refTy ++ ")"

/-- Embedding of lookupEntryRefCodecSymbol: raises unless the symbol exists
and is a function. -/
def lookupEntryRefCodecSymbol (symtab : GdbSymTab) (className fnName : String) :
    Except String GdbSym :=
  let symName := className ++ "::" ++ fnName
  match symtab symName with
  | none =>
    Except.error ("required symbol " ++ symName
      ++ " does not exist or is not a function")
  | some sym =>
    if sym.is_function then Except.ok sym
    else Except.error ("required symbol " ++ symName
      ++ " does not exist or is not a function")

/-- Failure modes of _lookup_entry_ref_codec_functions: attrError models the
AttributeError escaping from _remove_generics, symbolFailure the exception
raised by lookupEntryRefCodecSymbol. -/
inductive CodecErr where
  | attrError : CodecErr
  | symbolFailure : String → CodecErr
deriving DecidableEq, Repr

/-- Embedding of _lookup_entry_ref_codec_functions. -/
def lookupEntryRefCodecFunctions (symtab : GdbSymTab)
    (elementTy entryTy : String) (entryExTy : ExtractorTy)
    (entryRefUnionTy : String) : Except CodecErr (GdbSym × GdbSym) :=
  match getEntryExtractorTypename entryExTy with
  | none => Except.error CodecErr.attrError
  | some entryExTyName =>
    let className := codecClassName elementTy entryTy entryExTyName
    match lookupEntryRefCodecSymbol symtab className
        (entryFnName entryExTyName entryRefUnionTy) with
    | Except.error m => Except.error (CodecErr.symbolFailure m)
    | Except.ok getEntrySym =>
      match lookupEntryRefCodecSymbol symtab className
          (valueFnName entryRefUnionTy) with
      | Except.error m => Except.error (CodecErr.symbolFailure m)
      | Except.ok getValueSym => Except.ok (getEntrySym, getValueSym)

/-- State built by EntryRefPrinter.__init__ for a csg::entry_ref_union value:
the label text and the address of the single child value.  Addresses are
modelled as natural numbers (the source converts them with int()). -/
structure ERPrinter where
  label : String
  childAddr : Nat
deriving DecidableEq, Repr

/-- GDB prints a pointer type as the target type name followed by a space and
a star; this models str(ptrType) for the two ptrType.pointer() calls. -/
def ptrTypeName (t : String) : String := t ++ " *"

/-- Embedding of EntryRefPrinter.__init__.  entryTyName and elemTyName are
the printed texts of template arguments 0 and 1 of the entry_ref_union type;
addr is the m_address field of the offset member.  The low-bit test
int(addrVal) and 0x1 is modelled as the parity of the address. -/
def entryRefPrinterInit (entryTyName elemTyName : String) (addr : Nat) :
    ERPrinter :=
  if addr % 2 = 1 then
    { label := ptrTypeName elemTyName, childAddr := addr - 1 }
  else
    { label := ptrTypeName entryTyName, childAddr := addr }

/-- Embedding of EntryRefPrinter.children: a single yield. -/
def entryRefPrinterChildren (p : ERPrinter) : List (String × Nat) :=
  [(p.label, p.childAddr)]

/-- Introspected content of the list-head entry the walker reads
(m_endEntry for tailq flavors, m_headEntry otherwise): its own address and
the m_address word stored in its next entry_ref_union field. -/
structure EntryVal where
  address : Nat
  next : Nat
deriving DecidableEq, Repr

/-- Introspected content of a list head object.  A field access that does
not exist on the concrete head type is modelled by `none`. -/
structure ListHeadVal where
  endEntry : Option EntryVal
  headEntry : Option EntryVal
deriving DecidableEq, Repr

/-- The m_head member of a list value: either the head object held by value
(head flavors) or a reference to a head stored elsewhere (proxy flavors). -/
inductive HeadSlot where
  | val : ListHeadVal → HeadSlot
  | ref : ListHeadVal → HeadSlot
deriving DecidableEq, Repr

/-- gdb referenced_value on the m_head member: defined only on a reference. -/
def HeadSlot.referencedValue : HeadSlot → Option ListHeadVal
  | HeadSlot.ref h => some h
  | HeadSlot.val _ => none

/-- Direct use of the m_head member as a head object: defined only when the
member holds the head by value. -/
def HeadSlot.asVal : HeadSlot → Option ListHeadVal
  | HeadSlot.val h => some h
  | HeadSlot.ref _ => none

/-- Introspected content of a CSD list value as ListPrinter.__init__ reads
it.  typeName is the printed name of the typedef-stripped value type;
elementTy is template argument 0 of the first base class, entryTy template
argument 0 of the entry_ref_union type, entryExTy the typedef-stripped type
of the m_entryExtractor field, entryRefUnionTy the printed type of the next
field.  These come from the external type-metadata provider. -/
structure CsdListValue where
  typeName : String
  mHead : HeadSlot
  elementTy : String
  entryTy : String
  entryExTy : ExtractorTy
  entryRefUnionTy : String

/-- Failure modes of ListPrinter.__init__: metaError models any Python
exception raised by type introspection (the failing regex match, the assert
on the csg:: prefix, a field access on the wrong shape); codecFailure models
an exception escaping from _lookup_entry_ref_codec_functions. -/
inductive InitErr where
  | metaError : InitErr
  | codecFailure : CodecErr → InitErr
deriving DecidableEq, Repr

/-- The state ListPrinter.__init__ stores for later iteration. -/
structure ListInit where
  listTyName : String
  isProxy : Bool
  isTailQ : Bool
  stopEntryRefValue : Nat
  firstEntryRef : Nat
  getEntryFn : GdbSym
  getValueFn : GdbSym
deriving DecidableEq, Repr

/-- The two lines resolving fwdHead in ListPrinter.__init__: the m_head
member, dereferenced once when the flavor is a proxy. -/
def resolveHead (isProxy : Bool) (slot : HeadSlot) : Option ListHeadVal :=
  if isProxy then slot.referencedValue else slot.asVal

/-- Embedding of ListPrinter.__init__. -/
def listPrinterInit (symtab : GdbSymTab) (v : CsdListValue) :
    Except InitErr ListInit :=
  match removeGenerics v.typeName with
  | none => Except.error InitErr.metaError
  | some qualListTyName =>
    if pyStartswith qualListTyName "csg::" = false then
      Except.error InitErr.metaError
    else
      let listTyName := pyDrop qualListTyName 5
      let isProxy := pyEndswith listTyName "_proxy"
      let isTailQ := pyStartswith listTyName "tailq_"
      match resolveHead isProxy v.mHead with
      | none => Except.error InitErr.metaError
      | some fwdHead =>
        match (if isTailQ then fwdHead.endEntry else fwdHead.headEntry) with
        | none => Except.error InitErr.metaError
        | some listHeadEntry =>
          let stopEntryRefValue :=
            if isTailQ then listHeadEntry.address else 0
          let firstEntryRef := listHeadEntry.next
          match lookupEntryRefCodecFunctions symtab v.elementTy v.entryTy
              v.entryExTy v.entryRefUnionTy with
          | Except.error e => Except.error (InitErr.codecFailure e)
          | Except.ok (getEntryFn, getValueFn) =>
            Except.ok
              { listTyName := listTyName
                isProxy := isProxy
                isTailQ := isTailQ
                stopEntryRefValue := stopEntryRefValue
                firstEntryRef := firstEntryRef
                getEntryFn := getEntryFn
                getValueFn := getValueFn }

/-- Behavior of the two resolved codec callables and of target memory during
iteration, over entry-reference addresses.  getValue models
getValueFn(ref).referenced_value(); nextRef models
getEntryFn(entryEx, ref).dereference() followed by reading the next field. -/
structure IterEnv (α : Type) where
  stop : Nat
  getValue : Nat → α
  nextRef : Nat → Nat

/-- Mutable state of ListPrinter.ListIterator: the current entry-reference
address and the count field. -/
structure IterState where
  nextEntryRef : Nat
  count : Nat
deriving DecidableEq, Repr

/-- Embedding of ListIterator.isFinished. -/
def iterIsFinished (stop : Nat) (s : IterState) : Bool :=
  s.nextEntryRef == stop

/-- Embedding of ListIterator.__next__: the count is incremented first, then
the finished check runs, then the current element is produced and the
iterator advances.  `none` models StopIteration. -/
def iterNext {α : Type} (env : IterEnv α) (s : IterState) :
    Option ((String × α) × IterState) :=
  let count := s.count + 1
  if iterIsFinished env.stop { nextEntryRef := s.nextEntryRef, count := count }
  then none
  else
    some ((("[" ++ toString count ++ "]"), env.getValue s.nextEntryRef),
      { nextEntryRef := env.nextRef s.nextEntryRef, count := count })

/-- Repeated pulls from the iterator, collecting the yielded pairs; fuel
bounds the number of pulls, matching the demand-driven consumer. -/
def iterRun {α : Type} (env : IterEnv α) : Nat → IterState → List (String × α)
  | 0, _ => []
  | fuel + 1, s =>
    match iterNext env s with
    | none => []
    | some (p, s2) => p :: iterRun env fuel s2

/-- The chain of entry-reference addresses reached from first by repeatedly
following nextRef. -/
def refChain (nextRef : Nat → Nat) (first : Nat) : Nat → Nat
  | 0 => first
  | k + 1 => nextRef (refChain nextRef first k)

/-- The typedef-stripped type code of an inspected value, as the dispatcher
distinguishes it. -/
inductive TypeCode where
  | structCode : TypeCode
  | unionCode : TypeCode
  | otherCode : TypeCode
deriving DecidableEq, Repr

/-- Introspected type of an arbitrary value offered to the dispatcher, after
strip_typedefs; name models canonType.name or canonType.tag or
str(canonType). -/
structure GdbTypeDesc where
  code : TypeCode
  name : String
deriving DecidableEq, Repr

/-- Which printer class a dispatcher table entry denotes. -/
inductive PrinterKind where
  | listKind : PrinterKind
  | entryRefKind : PrinterKind
deriving DecidableEq, Repr

/-- Embedding of the CSDPrettyPrinter.__init__ lookup dictionary. -/
def printerLookup (n : String) : Option PrinterKind :=
  if n = "slist_head" then some PrinterKind.listKind
  else if n = "slist_proxy" then some PrinterKind.listKind
  else if n = "stailq_head" then some PrinterKind.listKind
  else if n = "stailq_proxy" then some PrinterKind.listKind
  else if n = "tailq_head" then some PrinterKind.listKind
  else if n = "tailq_proxy" then some PrinterKind.listKind
  else if n = "entry_ref_union" then some PrinterKind.entryRefKind
  else none

/-- Embedding of CSDPrettyPrinter.__call__.  The outer Option models a
Python exception escaping the call (`none`, possible only when
_remove_generics fails); the inner Option is the returned value, `none`
meaning no applicable printer. -/
def csdPrettyPrinterCall (t : GdbTypeDesc) : Option (Option PrinterKind) :=
  if t.code = TypeCode.structCode ∨ t.code = TypeCode.unionCode then
    if pyStartswith t.name "csg::" = false then some none
    else
      match removeGenerics (pyDrop t.name 5) with
      | none => none
      | some baseName => some (printerLookup baseName)
  else some none

/-- Fully qualified name of the first symbol the codec resolver consults. -/
def codecKey1 (el en exName refTy : String) : String :=
  codecClassName el en exName ++ "::" ++ entryFnName exName refTy

/-- Fully qualified name of the second symbol the codec resolver consults. -/
def codecKey2 (el en exName refTy : String) : String :=
  codecClassName el en exName ++ "::" ++ valueFnName refTy

/-- A symbol-table entry that makes lookupEntryRefCodecSymbol raise: absent,
or present but not a function. -/
def symBad (o : Option GdbSym) : Prop :=
  match o with
  | none => True
  | some s => s.is_function = false

/-- Unfolding of listPrinterInit once the typename normalization has
succeeded and the csg:: prefix assertion has passed. -/
lemma listPrinterInit_unfold (symtab : GdbSymTab) (v : CsdListValue)
    (qual : String)
    (hq : removeGenerics v.typeName = some qual)
    (hpref : pyStartswith qual "csg::" = true) :
    listPrinterInit symtab v =
      (match resolveHead (pyEndswith (pyDrop qual 5) "_proxy") v.mHead with
       | none => Except.error InitErr.metaError
       | some fwdHead =>
         match (if pyStartswith (pyDrop qual 5) "tailq_" then fwdHead.endEntry
                else fwdHead.headEntry) with
         | none => Except.error InitErr.metaError
         | some entry =>
           match lookupEntryRefCodecFunctions symtab v.elementTy v.entryTy
               v.entryExTy v.entryRefUnionTy with
           | Except.error e => Except.error (InitErr.codecFailure e)
           | Except.ok (s1, s2) =>
             Except.ok
               { listTyName := pyDrop qual 5
                 isProxy := pyEndswith (pyDrop qual 5) "_proxy"
                 isTailQ := pyStartswith (pyDrop qual 5) "tailq_"
                 stopEntryRefValue :=
                   if pyStartswith (pyDrop qual 5) "tailq_" then entry.address
                   else 0
                 firstEntryRef := entry.next
                 getEntryFn := s1
                 getValueFn := s2 }) := by
  unfold listPrinterInit
  rw [hq]
  simp only [hpref, Bool.true_eq_false, if_false]

/-- Inversion: a successful listPrinterInit determines every stored field
from the introspected value. -/
lemma listPrinterInit_ok (symtab : GdbSymTab) (v : CsdListValue)
    (i : ListInit) (h : listPrinterInit symtab v = Except.ok i) :
    ∃ qual fwdHead entry s1 s2,
      removeGenerics v.typeName = some qual
      ∧ pyStartswith qual "csg::" = true
      ∧ resolveHead (pyEndswith (pyDrop qual 5) "_proxy") v.mHead
          = some fwdHead
      ∧ (if pyStartswith (pyDrop qual 5) "tailq_" then fwdHead.endEntry
         else fwdHead.headEntry) = some entry
      ∧ lookupEntryRefCodecFunctions symtab v.elementTy v.entryTy v.entryExTy
          v.entryRefUnionTy = Except.ok (s1, s2)
      ∧ i = { listTyName := pyDrop qual 5
              isProxy := pyEndswith (pyDrop qual 5) "_proxy"
              isTailQ := pyStartswith (pyDrop qual 5) "tailq_"
              stopEntryRefValue :=
                if pyStartswith (pyDrop qual 5) "tailq_" then entry.address
                else 0
              firstEntryRef := entry.next
              getEntryFn := s1
              getValueFn := s2 } := by
  rcases hq : removeGenerics v.typeName with _ | qual
  · unfold listPrinterInit at h
    rw [hq] at h
    simp at h
  · by_cases hpref : pyStartswith qual "csg::" = true
    · rw [listPrinterInit_unfold symtab v qual hq hpref] at h
      rcases hr : resolveHead (pyEndswith (pyDrop qual 5) "_proxy") v.mHead
          with _ | fwdHead
      · rw [hr] at h; simp at h
      · rw [hr] at h
        simp only [] at h
        rcases he : (if pyStartswith (pyDrop qual 5) "tailq_" then
            fwdHead.endEntry else fwdHead.headEntry) with _ | entry
        · rw [he] at h; simp at h
        · rw [he] at h
          simp only [] at h
          rcases hl : lookupEntryRefCodecFunctions symtab v.elementTy
              v.entryTy v.entryExTy v.entryRefUnionTy with e | ⟨s1, s2⟩
          · rw [hl] at h; simp at h
          · rw [hl] at h
            simp at h
            exact ⟨qual, fwdHead, entry, s1, s2, rfl, hpref, hr, he, rfl,
              h.symm⟩
    · unfold listPrinterInit at h
      rw [hq] at h
      simp only [] at h
      simp only [Bool.not_eq_true] at hpref
      rw [hpref] at h
      simp at h

/-- Stepping the reference chain commutes with shifting its start. -/
lemma refChain_shift (nx : Nat → Nat) (first : Nat) :
    ∀ k, refChain nx (nx first) k = refChain nx first (k + 1)
  | 0 => rfl
  | k + 1 => by
    show nx (refChain nx (nx first) k) = nx (refChain nx first (k + 1))
    rw [refChain_shift nx first k]

/-- Closed form of iterRun: when the stop value is first reached at chain
index k, the run yields one labelled element per chain position before k,
bounded by the available fuel. -/
lemma iterRun_spec {α : Type} (env : IterEnv α) :
    ∀ (fuel k first c : Nat),
      refChain env.nextRef first k = env.stop →
      (∀ j, j < k → refChain env.nextRef first j ≠ env.stop) →
      iterRun env fuel { nextEntryRef := first, count := c }
        = (List.range (min fuel k)).map
            (fun j => ("[" ++ toString (c + j + 1) ++ "]",
              env.getValue (refChain env.nextRef first j)))
  | 0, k, first, c, hstop, hne => by simp [iterRun]
  | fuel + 1, 0, first, c, hstop, hne => by
    have h0 : first = env.stop := hstop
    simp [iterRun, iterNext, iterIsFinished, h0]
  | fuel + 1, k + 1, first, c, hstop, hne => by
    have hfirst : first ≠ env.stop := hne 0 (Nat.succ_pos k)
    have hnext : iterNext env { nextEntryRef := first, count := c }
        = some ((("[" ++ toString (c + 1) ++ "]"), env.getValue first),
            { nextEntryRef := env.nextRef first, count := c + 1 }) := by
      simp [iterNext, iterIsFinished, hfirst]
    have ih := iterRun_spec env fuel k (env.nextRef first) (c + 1)
      (by rw [refChain_shift]; exact hstop)
      (by intro j hj
          rw [refChain_shift]
          exact hne (j + 1) (Nat.succ_lt_succ hj))
    rw [iterRun, hnext]
    simp only []
    rw [ih, Nat.succ_min_succ, List.range_succ_eq_map, List.map_cons,
        List.map_map]
    have hfun : ((fun j => ("[" ++ toString (c + j + 1) ++ "]",
          env.getValue (refChain env.nextRef first j))) ∘ Nat.succ)
        = (fun j => ("[" ++ toString (c + 1 + j + 1) ++ "]",
            env.getValue (refChain env.nextRef (env.nextRef first) j))) := by
      funext j
      simp only [Function.comp_apply, Nat.succ_eq_add_one]
      have h2 : c + (j + 1) + 1 = c + 1 + j + 1 := by omega
      rw [h2, refChain_shift env.nextRef first j]
    rw [hfun]
    simp [refChain]

/-- Core of the proxy-versus-head comparison: for a flavor prefix whose
string computations are as hypothesized, initializing on a proxy value
referencing head h equals initializing on the head value h directly, up to
the stored flavor name and proxy flag. -/
lemma proxy_head_core (symtab : GdbSymTab) (pre : String) (h : ListHeadVal)
    (el en refTy : String) (ex : ExtractorTy) (qp qh : String)
    (hqp : removeGenerics ("csg::" ++ pre ++ "_proxy") = some qp)
    (hqh : removeGenerics ("csg::" ++ pre ++ "_head") = some qh)
    (hprefP : pyStartswith qp "csg::" = true)
    (hprefH : pyStartswith qh "csg::" = true)
    (hdropP : pyDrop qp 5 = pre ++ "_proxy")
    (hdropH : pyDrop qh 5 = pre ++ "_head")
    (hendP : pyEndswith (pre ++ "_proxy") "_proxy" = true)
    (hendH : pyEndswith (pre ++ "_head") "_proxy" = false)
    (htq : pyStartswith (pre ++ "_proxy") "tailq_"
        = pyStartswith (pre ++ "_head") "tailq_") :
    listPrinterInit symtab
        { typeName := "csg::" ++ pre ++ "_proxy", mHead := HeadSlot.ref h,
          elementTy := el, entryTy := en, entryExTy := ex,
          entryRefUnionTy := refTy }
      = (listPrinterInit symtab
          { typeName := "csg::" ++ pre ++ "_head", mHead := HeadSlot.val h,
            elementTy := el, entryTy := en, entryExTy := ex,
            entryRefUnionTy := refTy }).map
          (fun i => { i with listTyName := pre ++ "_proxy",
                             isProxy := true }) := by
  rw [listPrinterInit_unfold symtab _ qp hqp hprefP,
      listPrinterInit_unfold symtab _ qh hqh hprefH]
  simp only [hdropP, hdropH, hendP, hendH, htq]
  simp only [resolveHead, HeadSlot.referencedValue, HeadSlot.asVal]
  simp only [Bool.false_eq_true, if_true, if_false, eq_self_iff_true,
    ite_true, ite_false]
  cases hhe : (if pyStartswith (pre ++ "_head") "tailq_" then h.endEntry
      else h.headEntry) with
  | none => simp [Except.map]
  | some entry =>
    simp only []
    cases hl : lookupEntryRefCodecFunctions symtab el en ex refTy with
    | error er => simp [Except.map]
    | ok p =>
      rcases p with ⟨s1, s2⟩
      simp [Except.map]

/-- C1: for every list value the walker accepts, the stored stop value is
the address of the embedded sentinel entry (m_endEntry) for tailq flavors
and the literal zero address for the other flavors; the iterator reports
StopIteration exactly when the current reference address equals that stop
value, and a list whose first reference already equals the stop value
yields a zero-length sequence. -/
theorem listWalker_stop_value_spec (symtab : GdbSymTab) (v : CsdListValue)
    (i : ListInit) (fwdHead : ListHeadVal) (entry : EntryVal)
    (hinit : listPrinterInit symtab v = Except.ok i)
    (hfwd : resolveHead i.isProxy v.mHead = some fwdHead)
    (hentry : (if i.isTailQ then fwdHead.endEntry else fwdHead.headEntry)
        = some entry) :
    (i.isTailQ = true → i.stopEntryRefValue = entry.address)
    ∧ (i.isTailQ = false → i.stopEntryRefValue = 0)
    ∧ i.firstEntryRef = entry.next
    ∧ (∀ {α : Type} (env : IterEnv α) (s : IterState),
        env.stop = i.stopEntryRefValue →
        (iterNext env s = none ↔ s.nextEntryRef = i.stopEntryRefValue))
    ∧ (∀ {α : Type} (env : IterEnv α) (fuel : Nat),
        env.stop = i.stopEntryRefValue →
        i.firstEntryRef = i.stopEntryRefValue →
        iterRun env fuel { nextEntryRef := i.firstEntryRef, count := 0 }
          = []) := by
  obtain ⟨qual, fwd0, e0, s1, s2, hq, hpref, hr, he, hl, hi⟩ :=
    listPrinterInit_ok symtab v i hinit
  have hproxy : i.isProxy = pyEndswith (pyDrop qual 5) "_proxy" := by rw [hi]
  have htailq : i.isTailQ = pyStartswith (pyDrop qual 5) "tailq_" := by
    rw [hi]
  rw [hproxy, hr] at hfwd
  have hfwd0 : fwd0 = fwdHead := Option.some.inj hfwd
  rw [htailq, ← hfwd0, he] at hentry
  have he0 : e0 = entry := Option.some.inj hentry
  subst he0
  refine ⟨?_, ?_, ?_, ?_, ?_⟩
  · intro ht
    rw [htailq] at ht
    rw [hi]
    simp [ht]
  · intro ht
    rw [htailq] at ht
    rw [hi]
    simp [ht]
  · rw [hi]
  · intro α env s hstopEq
    simp [iterNext, iterIsFinished, hstopEq]
  · intro α env fuel hstopEq hfirstEq
    cases fuel with
    | zero => rfl
    | succ fuel =>
      simp [iterRun, iterNext, iterIsFinished, hstopEq, hfirstEq]

/-- C2: every pull on a non-finished state yields the current element
labelled with the incremented 1-based count and advances to the next
reference of the current entry; when the stop value is first reached at
chain index k, a run yields exactly the k reachable elements in order with
consecutive labels, becoming finished only after the k-th element. -/
theorem listWalker_traversal_spec {α : Type} (env : IterEnv α)
    (first k : Nat)
    (hstop : refChain env.nextRef first k = env.stop)
    (hne : ∀ j, j < k → refChain env.nextRef first j ≠ env.stop) :
    (∀ s : IterState, s.nextEntryRef ≠ env.stop →
      iterNext env s = some ((("[" ++ toString (s.count + 1) ++ "]"),
          env.getValue s.nextEntryRef),
        { nextEntryRef := env.nextRef s.nextEntryRef,
          count := s.count + 1 }))
    ∧ (∀ fuel, iterRun env fuel { nextEntryRef := first, count := 0 }
        = (List.range (min fuel k)).map
            (fun j => ("[" ++ toString (j + 1) ++ "]",
              env.getValue (refChain env.nextRef first j))))
    ∧ (∀ fuel, k ≤ fuel →
        (iterRun env fuel { nextEntryRef := first, count := 0 }).length = k)
    ∧ iterNext env
        { nextEntryRef := refChain env.nextRef first k, count := k } = none
    ∧ (∀ j, j < k →
        iterNext env
          { nextEntryRef := refChain env.nextRef first j, count := j }
          ≠ none) := by
  refine ⟨?_, ?_, ?_, ?_, ?_⟩
  · intro s hs
    simp [iterNext, iterIsFinished, hs]
  · intro fuel
    have h := iterRun_spec env fuel k first 0 hstop hne
    simpa using h
  · intro fuel hk
    have h := iterRun_spec env fuel k first 0 hstop hne
    rw [h, List.length_map, List.length_range, Nat.min_eq_right hk]
  · simp [iterNext, iterIsFinished, hstop]
  · intro j hj
    simp [iterNext, iterIsFinished, hne j hj]

/-- C3: the codec resolver normalizes the extractor typename and rebuilds
the extractor text from template arguments 0, 1 and the suffix-encoded
argument 2 exactly when the normalized name is the offset-based extractor,
using the typedef-stripped name unchanged otherwise; the result of
_lookup_entry_ref_codec_functions depends on the symbol table only at the
two constructed names, the get_entry and get_value members of the
entry_ref_codec class name. -/
theorem codecResolver_name_construction (symtab : GdbSymTab)
    (el en refTy : String) (ex : ExtractorTy) (tn : String)
    (htn : removeGenerics ex.strippedName = some tn) :
    ((tn = "csg::offset_extractor" →
       getEntryExtractorTypename ex =
         some ("csg::offset_extractor<" ++ ex.arg0 ++ ", " ++ ex.arg1
           ++ ", " ++ encodeNttp ex.arg2Val ex.arg2TypeName ++ ">"))
     ∧ (tn ≠ "csg::offset_extractor" →
         getEntryExtractorTypename ex = some ex.strippedName))
    ∧ (∀ exName, getEntryExtractorTypename ex = some exName →
        ∀ symtab2 : GdbSymTab,
          symtab2 (codecKey1 el en exName refTy)
            = symtab (codecKey1 el en exName refTy) →
          symtab2 (codecKey2 el en exName refTy)
            = symtab (codecKey2 el en exName refTy) →
          lookupEntryRefCodecFunctions symtab2 el en ex refTy
            = lookupEntryRefCodecFunctions symtab el en ex refTy) := by
  refine ⟨⟨?_, ?_⟩, ?_⟩
  · intro h
    unfold getEntryExtractorTypename
    rw [htn]
    simp [h]
  · intro h
    unfold getEntryExtractorTypename
    rw [htn]
    simp [h]
  · intro exName hex symtab2 h1 h2
    unfold lookupEntryRefCodecFunctions
    rw [hex]
    simp only [lookupEntryRefCodecSymbol, codecKey1, codecKey2,
      codecClassName] at h1 h2 ⊢
    rw [h1, h2]

/-- C4: the offset encoder emits the decimal text of the value with the
ABI suffix from the five-entry table, and the bare decimal text for any
type name outside the table. -/
theorem offsetEncoder_suffix_table :
    (∀ v : Int, encodeNttp v "long" = toString v ++ "l")
    ∧ (∀ v : Int, encodeNttp v "long long" = toString v ++ "ll")
    ∧ (∀ v : Int, encodeNttp v "unsigned int" = toString v ++ "u")
    ∧ (∀ v : Int, encodeNttp v "unsigned long" = toString v ++ "ul")
    ∧ (∀ v : Int, encodeNttp v "unsigned long long" = toString v ++ "ull")
    ∧ (∀ (v : Int) (k : String),
        k ∉ ["long", "long long", "unsigned int", "unsigned long",
             "unsigned long long"] →
        encodeNttp v k = toString v) := by
  refine ⟨fun v => rfl, fun v => rfl, fun v => rfl, fun v => rfl,
    fun v => rfl, ?_⟩
  intro v k hk
  unfold encodeNttp nttpIntegralSuffix
  split_ifs with h1 h2 h3 h4 h5
  · simp [h1] at hk
  · simp [h2] at hk
  · simp [h3] at hk
  · simp [h4] at hk
  · simp [h5] at hk
  · rfl

/-- C5: codec resolution returns a symbol-failure error exactly when either
required symbol is absent from the table or present but not a function; a
successful resolution returns the two genuine function symbols, and a
symbol failure makes listPrinterInit of any value carrying these type
descriptors fail rather than succeed. -/
theorem codecResolver_failure_spec (symtab : GdbSymTab)
    (el en refTy : String) (ex : ExtractorTy) (exName : String)
    (hex : getEntryExtractorTypename ex = some exName) :
    ((∃ m, lookupEntryRefCodecFunctions symtab el en ex refTy
        = Except.error (CodecErr.symbolFailure m))
      ↔ (symBad (symtab (codecKey1 el en exName refTy))
         ∨ symBad (symtab (codecKey2 el en exName refTy))))
    ∧ (∀ s1 s2, lookupEntryRefCodecFunctions symtab el en ex refTy
          = Except.ok (s1, s2) →
        symtab (codecKey1 el en exName refTy) = some s1
        ∧ symtab (codecKey2 el en exName refTy) = some s2
        ∧ s1.is_function = true ∧ s2.is_function = true)
    ∧ (∀ m, lookupEntryRefCodecFunctions symtab el en ex refTy
          = Except.error (CodecErr.symbolFailure m) →
        ∀ v : CsdListValue, v.elementTy = el → v.entryTy = en →
          v.entryExTy = ex → v.entryRefUnionTy = refTy →
          ∀ i, listPrinterInit symtab v ≠ Except.ok i) := by
  have hunf : lookupEntryRefCodecFunctions symtab el en ex refTy
      = (match symtab (codecKey1 el en exName refTy) with
         | none => Except.error (CodecErr.symbolFailure
             ("required symbol " ++ codecKey1 el en exName refTy
               ++ " does not exist or is not a function"))
         | some s1 =>
           if s1.is_function then
             match symtab (codecKey2 el en exName refTy) with
             | none => Except.error (CodecErr.symbolFailure
                 ("required symbol " ++ codecKey2 el en exName refTy
                   ++ " does not exist or is not a function"))
             | some s2 =>
               if s2.is_function then Except.ok (s1, s2)
               else Except.error (CodecErr.symbolFailure
                 ("required symbol " ++ codecKey2 el en exName refTy
                   ++ " does not exist or is not a function"))
           else Except.error (CodecErr.symbolFailure
             ("required symbol " ++ codecKey1 el en exName refTy
               ++ " does not exist or is not a function"))) := by
    unfold lookupEntryRefCodecFunctions
    rw [hex]
    simp only [lookupEntryRefCodecSymbol, codecKey1, codecKey2,
      codecClassName]
    rcases symtab ("csg::detail::entry_ref_codec<" ++ en ++ ", " ++ el
        ++ ", " ++ exName ++ ">" ++ "::" ++ entryFnName exName refTy)
        with _ | s1
    · rfl
    · by_cases hf : s1.is_function
      · simp only [hf, if_true]
        rcases symtab ("csg::detail::entry_ref_codec<" ++ en ++ ", " ++ el
            ++ ", " ++ exName ++ ">" ++ "::" ++ valueFnName refTy)
            with _ | s2
        · rfl
        · by_cases hg : s2.is_function
          · simp [hf, hg]
          · simp [hf, hg]
      · simp [hf]
  refine ⟨?_, ?_, ?_⟩
  · rw [hunf]
    rcases hk1 : symtab (codecKey1 el en exName refTy) with _ | s1
    · simp [symBad, hk1]
    · by_cases hf : s1.is_function
      · rcases hk2 : symtab (codecKey2 el en exName refTy) with _ | s2
        · simp [symBad, hk1, hk2, hf]
        · by_cases hg : s2.is_function
          · simp [symBad, hk1, hk2, hf, hg]
          · simp [symBad, hk1, hk2, hf, hg]
      · simp [symBad, hk1, hf]
  · intro s1 s2 hok
    rw [hunf] at hok
    rcases hk1 : symtab (codecKey1 el en exName refTy) with _ | t1
    · rw [hk1] at hok; simp at hok
    · rw [hk1] at hok
      simp only [] at hok
      by_cases hf : t1.is_function
      · rw [if_pos hf] at hok
        rcases hk2 : symtab (codecKey2 el en exName refTy) with _ | t2
        · rw [hk2] at hok; simp at hok
        · rw [hk2] at hok
          simp only [] at hok
          by_cases hg : t2.is_function
          · rw [if_pos hg] at hok
            simp at hok
            rcases hok with ⟨h1, h2⟩
            subst h1; subst h2
            exact ⟨rfl, rfl, hf, hg⟩
          · rw [if_neg hg] at hok; simp at hok
      · rw [if_neg hf] at hok; simp at hok
  · intro m hm v hel hen hex2 href i hok
    obtain ⟨qual, fwdHead, entry, t1, t2, _, _, _, _, hl, _⟩ :=
      listPrinterInit_ok symtab v i hok
    rw [hel, hen, hex2, href] at hl
    rw [hm] at hl
    exact Except.noConfusion hl

/-- C6: the tagged-reference decoder is a total function of the address:
an odd address is relabelled as a pointer to the element type at address
minus one, an even address (zero included) as a pointer to the entry type
at the address itself, and children yields exactly the one resulting
(label, target) pair. -/
theorem taggedReferenceDecoder_spec (entryTyName elemTyName : String)
    (addr : Nat) :
    (addr % 2 = 1 →
      entryRefPrinterInit entryTyName elemTyName addr =
        { label := ptrTypeName elemTyName, childAddr := addr - 1 })
    ∧ (addr % 2 = 0 →
      entryRefPrinterInit entryTyName elemTyName addr =
        { label := ptrTypeName entryTyName, childAddr := addr })
    ∧ entryRefPrinterChildren (entryRefPrinterInit entryTyName elemTyName
          addr)
        = [((entryRefPrinterInit entryTyName elemTyName addr).label,
            (entryRefPrinterInit entryTyName elemTyName addr).childAddr)]
    := by
  refine ⟨?_, ?_, rfl⟩
  · intro h; simp [entryRefPrinterInit, h]
  · intro h; simp [entryRefPrinterInit, h]

/-- C7: for each of the three flavor prefixes, initializing the walker on a
proxy value that references head h gives the same stored state as
initializing on h held directly, apart from the flavor name and proxy flag;
in particular both runs produce identical element sequences with identical
stop behavior. -/
theorem proxy_head_same_sequence (symtab : GdbSymTab) (pre : String)
    (hpre : pre = "slist" ∨ pre = "stailq" ∨ pre = "tailq")
    (h : ListHeadVal) (el en refTy : String) (ex : ExtractorTy) :
    listPrinterInit symtab
        { typeName := "csg::" ++ pre ++ "_proxy", mHead := HeadSlot.ref h,
          elementTy := el, entryTy := en, entryExTy := ex,
          entryRefUnionTy := refTy }
      = (listPrinterInit symtab
          { typeName := "csg::" ++ pre ++ "_head", mHead := HeadSlot.val h,
            elementTy := el, entryTy := en, entryExTy := ex,
            entryRefUnionTy := refTy }).map
          (fun i => { i with listTyName := pre ++ "_proxy",
                             isProxy := true })
    ∧ (∀ ip id2,
        listPrinterInit symtab
            { typeName := "csg::" ++ pre ++ "_proxy",
              mHead := HeadSlot.ref h, elementTy := el, entryTy := en,
              entryExTy := ex, entryRefUnionTy := refTy } = Except.ok ip →
        listPrinterInit symtab
            { typeName := "csg::" ++ pre ++ "_head",
              mHead := HeadSlot.val h, elementTy := el, entryTy := en,
              entryExTy := ex, entryRefUnionTy := refTy } = Except.ok id2 →
        ip.firstEntryRef = id2.firstEntryRef
        ∧ ip.stopEntryRefValue = id2.stopEntryRefValue
        ∧ ∀ (α : Type) (gv : Nat → α) (nx : Nat → Nat) (fuel : Nat),
            iterRun { stop := ip.stopEntryRefValue, getValue := gv,
                      nextRef := nx } fuel
              { nextEntryRef := ip.firstEntryRef, count := 0 }
            = iterRun { stop := id2.stopEntryRefValue, getValue := gv,
                        nextRef := nx } fuel
              { nextEntryRef := id2.firstEntryRef, count := 0 }) := by
  have hmap : listPrinterInit symtab
      { typeName := "csg::" ++ pre ++ "_proxy", mHead := HeadSlot.ref h,
        elementTy := el, entryTy := en, entryExTy := ex,
        entryRefUnionTy := refTy }
    = (listPrinterInit symtab
        { typeName := "csg::" ++ pre ++ "_head", mHead := HeadSlot.val h,
          elementTy := el, entryTy := en, entryExTy := ex,
          entryRefUnionTy := refTy }).map
        (fun i => { i with listTyName := pre ++ "_proxy",
                           isProxy := true }) := by
    rcases hpre with rfl | rfl | rfl
    · exact proxy_head_core symtab "slist" h el en refTy ex
        "csg::slist_proxy" "csg::slist_head" (by decide) (by decide)
        (by decide) (by decide) (by decide) (by decide) (by decide)
        (by decide) (by decide)
    · exact proxy_head_core symtab "stailq" h el en refTy ex
        "csg::stailq_proxy" "csg::stailq_head" (by decide) (by decide)
        (by decide) (by decide) (by decide) (by decide) (by decide)
        (by decide) (by decide)
    · exact proxy_head_core symtab "tailq" h el en refTy ex
        "csg::tailq_proxy" "csg::tailq_head" (by decide) (by decide)
        (by decide) (by decide) (by decide) (by decide) (by decide)
        (by decide) (by decide)
  refine ⟨hmap, ?_⟩
  intro ip id2 hp hd
  rw [hmap, hd] at hp
  simp only [Except.map] at hp
  have hip : ip = { id2 with listTyName := pre ++ "_proxy",
                             isProxy := true } := (Except.ok.inj hp).symm
  subst hip
  exact ⟨rfl, rfl, fun α gv nx fuel => rfl⟩

/-- C8: the dispatcher answers with no applicable printer whenever the
typedef-stripped code is not struct or union, or the name lacks the csg::
prefix, or the normalized remaining name is outside the fixed table; that
table maps exactly the six list names to the list printer and
entry_ref_union to the tagged-reference printer. -/
theorem dispatcher_table_spec (t : GdbTypeDesc) :
    ((t.code ≠ TypeCode.structCode ∧ t.code ≠ TypeCode.unionCode) →
      csdPrettyPrinterCall t = some none)
    ∧ (pyStartswith t.name "csg::" = false →
        csdPrettyPrinterCall t = some none)
    ∧ (∀ n, removeGenerics (pyDrop t.name 5) = some n →
        printerLookup n = none → csdPrettyPrinterCall t = some none)
    ∧ (∀ n, printerLookup n = some PrinterKind.listKind ↔
        n ∈ ["slist_head", "slist_proxy", "stailq_head", "stailq_proxy",
             "tailq_head", "tailq_proxy"])
    ∧ (∀ n, printerLookup n = some PrinterKind.entryRefKind ↔
        n = "entry_ref_union") := by
  refine ⟨?_, ?_, ?_, ?_, ?_⟩
  · intro hc
    unfold csdPrettyPrinterCall
    rw [if_neg (by tauto)]
  · intro hp
    unfold csdPrettyPrinterCall
    by_cases hc : t.code = TypeCode.structCode ∨ t.code = TypeCode.unionCode
    · rw [if_pos hc, if_pos hp]
    · rw [if_neg hc]
  · intro n hn hlook
    unfold csdPrettyPrinterCall
    by_cases hc : t.code = TypeCode.structCode ∨ t.code = TypeCode.unionCode
    · rw [if_pos hc]
      by_cases hp : pyStartswith t.name "csg::" = false
      · rw [if_pos hp]
      · rw [if_neg hp, hn]
        simp [hlook]
    · rw [if_neg hc]
  · intro n
    unfold printerLookup
    split_ifs <;> simp_all
  · intro n
    unfold printerLookup
    split_ifs <;> simp_all

/-- C9 counterexample: the normalizer is not total; on the empty name the
regular expression does not match and the Python code raises
AttributeError, modelled by the none result. -/
theorem removeGenerics_not_total : removeGenerics "" = none := rfl

/-- C9 amended: on every name that is nonempty and does not begin with an
open angle bracket, the normalizer succeeds and returns the maximal prefix
before the first open angle bracket, returning the name unchanged when no
angle bracket occurs. -/
theorem removeGenerics_amended (s : String) (hne : s.toList ≠ [])
    (hhead : s.toList.head? ≠ some '<') :
    (∃ t r, removeGenerics s = some t
      ∧ s.toList = t.toList ++ r
      ∧ (∀ c ∈ t.toList, c ≠ '<')
      ∧ (r = [] ∨ ∃ r2, r = '<' :: r2))
    ∧ ((∀ c ∈ s.toList, c ≠ '<') → removeGenerics s = some s) := by
  have hmk : String.mk s.toList = s := by cases s; rfl
  constructor
  · have htw : s.toList.takeWhile (fun c => decide (c ≠ '<')) ≠ [] := by
      cases hs : s.toList with
      | nil => exact absurd hs hne
      | cons a as =>
        have ha : a ≠ '<' := by
          intro hcontra
          apply hhead
          rw [hs, hcontra]
          rfl
        rw [List.takeWhile_cons_of_pos (by simpa using ha)]
        simp
    refine ⟨String.mk (s.toList.takeWhile (fun c => decide (c ≠ '<'))),
           s.toList.dropWhile (fun c => decide (c ≠ '<')), ?_, ?_, ?_, ?_⟩
    · unfold removeGenerics
      cases htt : s.toList.takeWhile (fun c => decide (c ≠ '<')) with
      | nil => exact absurd htt htw
      | cons b bs => simp [htt]
    · rw [String.toList]
      exact (List.takeWhile_append_dropWhile _ _).symm
    · intro c hc
      have := List.mem_takeWhile_imp hc
      simpa using this
    · cases hd : s.toList.dropWhile (fun c => decide (c ≠ '<')) with
      | nil => exact Or.inl rfl
      | cons b bs =>
        right
        refine ⟨bs, ?_⟩
        have hhd := List.head?_dropWhile_not (fun c => decide (c ≠ '<'))
          s.toList
        rw [hd] at hhd
        simp at hhd
        rw [hhd]
  · intro hall
    unfold removeGenerics
    have : s.toList.takeWhile (fun c => decide (c ≠ '<')) = s.toList :=
      List.takeWhile_eq_self_iff.mpr (by intro x hx; simpa using hall x hx)
    rw [this]
    cases hs : s.toList with
    | nil => exact absurd hs hne
    | cons a as =>
      show some (String.mk (a :: as)) = some s
      rw [← hs, hmk]

/-- C10: a successful walker setup entails that both codec accessor symbols
were resolved, and whenever the introspection of the value succeeds but the
codec lookup fails, setup reports exactly that failure; nothing in the
second part constrains the first reference, so the failure occurs even for
a list whose first reference already equals the stop value. -/
theorem codec_resolved_during_setup (symtab : GdbSymTab)
    (v : CsdListValue) :
    (∀ i, listPrinterInit symtab v = Except.ok i →
      ∃ s1 s2, lookupEntryRefCodecFunctions symtab v.elementTy v.entryTy
          v.entryExTy v.entryRefUnionTy = Except.ok (s1, s2)
        ∧ i.getEntryFn = s1 ∧ i.getValueFn = s2)
    ∧ (∀ qual fwdHead entry e2,
        removeGenerics v.typeName = some qual →
        pyStartswith qual "csg::" = true →
        resolveHead (pyEndswith (pyDrop qual 5) "_proxy") v.mHead
          = some fwdHead →
        (if pyStartswith (pyDrop qual 5) "tailq_" then fwdHead.endEntry
         else fwdHead.headEntry) = some entry →
        lookupEntryRefCodecFunctions symtab v.elementTy v.entryTy
            v.entryExTy v.entryRefUnionTy = Except.error e2 →
        listPrinterInit symtab v
          = Except.error (InitErr.codecFailure e2)) := by
  constructor
  · intro i hok
    obtain ⟨qual, fwd0, e0, s1, s2, _, _, _, _, hl, hi⟩ :=
      listPrinterInit_ok symtab v i hok
    exact ⟨s1, s2, hl, by rw [hi], by rw [hi]⟩
  · intro qual fwdHead entry e2 hq hpref hr he hl
    rw [listPrinterInit_unfold symtab v qual hq hpref, hr]
    simp only []
    rw [he]
    simp only []
    rw [hl]

/-- A symbol table in which every name resolves to a function symbol. -/
def symtabAll : GdbSymTab := fun _ => some { is_function := true }

/-- A symbol table with no entries. -/
def symtabNone : GdbSymTab := fun _ => none

/-- A plain extractor type whose name carries no template arguments. -/
def exPlain : ExtractorTy :=
  { strippedName := "X", arg0 := "", arg1 := "", arg2Val := 0,
    arg2TypeName := "" }

/-- An offset_extractor specialization with offset 8 of underlying type
unsigned long. -/
def exOffset : ExtractorTy :=
  { strippedName := "csg::offset_extractor<A, B, 8>", arg0 := "A",
    arg1 := "B", arg2Val := 8, arg2TypeName := "unsigned long" }

/-- Iteration behavior of a three-element singly-linked list holding the
values 10, 20 and 30 at entry references 100, 200 and 300, with the zero
stop value of the slist flavors. -/
def env3 : IterEnv Nat :=
  { stop := 0
    getValue := fun a =>
      if a = 100 then 10 else if a = 200 then 20 else
      if a = 300 then 30 else 0
    nextRef := fun a => if a = 100 then 200 else if a = 200 then 300 else 0 }

/-- Head of an empty tailq: the embedded end entry at address 77 whose next
reference already points back at address 77. -/
def headTailqEmpty : ListHeadVal :=
  { endEntry := some { address := 77, next := 77 }, headEntry := none }

/-- An empty csg::tailq_head list value. -/
def vTailqEmpty : CsdListValue :=
  { typeName := "csg::tailq_head<T>", mHead := HeadSlot.val headTailqEmpty,
    elementTy := "E", entryTy := "N", entryExTy := exPlain,
    entryRefUnionTy := "R" }

/-- The state listPrinterInit stores for vTailqEmpty under symtabAll. -/
def iTailqEmpty : ListInit :=
  { listTyName := "tailq_head", isProxy := false, isTailQ := true,
    stopEntryRefValue := 77, firstEntryRef := 77,
    getEntryFn := { is_function := true },
    getValueFn := { is_function := true } }

/-- Head of an empty slist: the head entry whose next reference is zero. -/
def headSlistEmpty : ListHeadVal :=
  { endEntry := none, headEntry := some { address := 50, next := 0 } }

/-- An empty csg::slist_head list value. -/
def vSlistEmpty : CsdListValue :=
  { typeName := "csg::slist_head<T>", mHead := HeadSlot.val headSlistEmpty,
    elementTy := "E", entryTy := "N", entryExTy := exPlain,
    entryRefUnionTy := "R" }

/-- The state listPrinterInit stores for vSlistEmpty under symtabAll. -/
def iSlistEmpty : ListInit :=
  { listTyName := "slist_head", isProxy := false, isTailQ := false,
    stopEntryRefValue := 0, firstEntryRef := 0,
    getEntryFn := { is_function := true },
    getValueFn := { is_function := true } }

/-- An iteration environment whose stop value is 77. -/
def envStop77 : IterEnv Nat :=
  { stop := 77, getValue := fun _ => 0, nextRef := fun _ => 0 }

/-- Witness for C1: an empty tailq stores the sentinel address 77 as its
stop value, an empty slist stores zero, and iterating the empty tailq
yields nothing. -/
theorem listWalker_stop_value_spec_witness :
    iTailqEmpty.stopEntryRefValue = 77
    ∧ iSlistEmpty.stopEntryRefValue = 0
    ∧ iterRun envStop77 5 { nextEntryRef := 77, count := 0 }
        = ([] : List (String × Nat)) := by
  have h1 := listWalker_stop_value_spec symtabAll vTailqEmpty iTailqEmpty
    headTailqEmpty { address := 77, next := 77 } rfl rfl rfl
  have h2 := listWalker_stop_value_spec symtabAll vSlistEmpty iSlistEmpty
    headSlistEmpty { address := 50, next := 0 } rfl rfl rfl
  exact ⟨h1.1 rfl, h2.2.1 rfl, h1.2.2.2.2 envStop77 5 rfl rfl⟩

/-- Witness for C2: the three-element list yields exactly the three pairs
with consecutive 1-based labels. -/
theorem listWalker_traversal_spec_witness :
    iterRun env3 10 { nextEntryRef := 100, count := 0 }
      = [("[1]", 10), ("[2]", 20), ("[3]", 30)] := by
  have h := (listWalker_traversal_spec env3 100 3 (by decide)
    (by decide)).2.1 10
  rw [h]
  decide

/-- Witness for C3: the offset extractor text is rebuilt with the encoded
third argument. -/
theorem codecResolver_name_construction_witness :
    getEntryExtractorTypename exOffset
      = some "csg::offset_extractor<A, B, 8ul>" := by
  have h := (codecResolver_name_construction symtabNone "E" "N" "R" exOffset
    "csg::offset_extractor" (by decide)).1.1 rfl
  rw [h]
  decide

/-- Witness for C4: a type name outside the table gets no suffix. -/
theorem offsetEncoder_suffix_table_witness : encodeNttp 7 "int" = "7" := by
  have h := offsetEncoder_suffix_table.2.2.2.2.2 7 "int" (by decide)
  rw [h]
  decide

/-- Witness for C5: with an empty symbol table the resolver reports a
symbol failure. -/
theorem codecResolver_failure_spec_witness :
    ∃ m, lookupEntryRefCodecFunctions symtabNone "E" "N" exPlain "R"
      = Except.error (CodecErr.symbolFailure m) := by
  have h := (codecResolver_failure_spec symtabNone "E" "N" "R" exPlain "X"
    (by decide)).1
  exact h.mpr (Or.inl trivial)

/-- Witness for C6: address 5 decodes as the element pointer at 4, address
4 as the entry pointer at 4. -/
theorem taggedReferenceDecoder_spec_witness :
    entryRefPrinterInit "N" "E" 5 = { label := "E *", childAddr := 4 }
    ∧ entryRefPrinterInit "N" "E" 4
        = { label := "N *", childAddr := 4 } := by
  have h1 := (taggedReferenceDecoder_spec "N" "E" 5).1 rfl
  have h2 := (taggedReferenceDecoder_spec "N" "E" 4).2.1 rfl
  constructor
  · rw [h1]; decide
  · rw [h2]; decide

/-- Witness for C7: a tailq proxy referencing the empty head initializes to
the same state as the head itself, up to name and proxy flag. -/
theorem proxy_head_same_sequence_witness :
    listPrinterInit symtabAll
        { typeName := "csg::" ++ "tailq" ++ "_proxy",
          mHead := HeadSlot.ref headTailqEmpty, elementTy := "E",
          entryTy := "N", entryExTy := exPlain, entryRefUnionTy := "R" }
      = (listPrinterInit symtabAll
          { typeName := "csg::" ++ "tailq" ++ "_head",
            mHead := HeadSlot.val headTailqEmpty, elementTy := "E",
            entryTy := "N", entryExTy := exPlain,
            entryRefUnionTy := "R" }).map
          (fun i => { i with listTyName := "tailq" ++ "_proxy",
                             isProxy := true }) :=
  (proxy_head_same_sequence symtabAll "tailq" (Or.inr (Or.inr rfl))
    headTailqEmpty "E" "N" "R" exPlain).1

/-- Witness for C8: a struct in the csg namespace with an unknown base name
gets no printer, without an error. -/
theorem dispatcher_table_spec_witness :
    csdPrettyPrinterCall
        { code := TypeCode.structCode, name := "csg::foo<int>" }
      = some none := by
  exact (dispatcher_table_spec
    { code := TypeCode.structCode, name := "csg::foo<int>" }).2.2.1
    "foo" (by decide) (by decide)

/-- Witness for C9 amended: a name with no template arguments is returned
unchanged. -/
theorem removeGenerics_amended_witness :
    removeGenerics "abc" = some "abc" := by
  exact (removeGenerics_amended "abc" (by decide) (by decide)).2 (by decide)

/-- Witness for C10: the empty slist value, whose first reference already
equals the stop value zero, still fails setup under the empty symbol
table. -/
theorem codec_resolved_during_setup_witness :
    ∃ m, listPrinterInit symtabNone vSlistEmpty
      = Except.error (InitErr.codecFailure (CodecErr.symbolFailure m)) := by
  have hl : lookupEntryRefCodecFunctions symtabNone "E" "N" exPlain "R"
      = Except.error (CodecErr.symbolFailure ("required symbol "
        ++ codecClassName "E" "N" "X" ++ "::" ++ entryFnName "X" "R"
        ++ " does not exist or is not a function")) := rfl
  exact ⟨_, (codec_resolved_during_setup symtabNone vSlistEmpty).2
    "csg::slist_head" headSlistEmpty { address := 50, next := 0 } _
    (by decide) (by decide) rfl (by decide) hl⟩
